import Mathlib

set_option linter.unusedVariables false

/-- A growth stage of a crop: its name, its duration in days and its NPK
multiplier, as stored in the per-crop stage tables of
`StreamlitCropDiseaseAnalyzer.CROPS` in `untitled5.py`. -/
structure GrowthStage where
  name : String
  duration : Int
  npk_multiplier : ℚ
deriving DecidableEq

/-- An N/P/K triple of rational numbers.  The source uses plain Python dicts
`{"N": _, "P": _, "K": _}` for base requirements, regional multipliers and the
computed requirement; floating point is modelled by exact rationals. -/
structure NPK where
  N : ℚ
  P : ℚ
  K : ℚ
deriving DecidableEq

/-- Stage table of the crop `"Rice"` in `CROPS`, in insertion order. -/
def riceStages : List GrowthStage :=
  [⟨"Seedling", 25, 0.4⟩, ⟨"Vegetative", 50, 0.9⟩,
   ⟨"Flowering", 30, 1.2⟩, ⟨"Maturing", 35, 1.4⟩]

/-- Stage table of the crop `"Maize"` in `CROPS`. -/
def maizeStages : List GrowthStage :=
  [⟨"Seedling", 20, 0.5⟩, ⟨"Vegetative", 45, 1.0⟩,
   ⟨"Flowering", 30, 1.3⟩, ⟨"Maturing", 35, 1.6⟩]

/-- Stage table of the crop `"Sorghum"` in `CROPS`. -/
def sorghumStages : List GrowthStage :=
  [⟨"Seedling", 22, 0.5⟩, ⟨"Vegetative", 40, 1.0⟩,
   ⟨"Flowering", 25, 1.2⟩, ⟨"Maturing", 30, 1.4⟩]

/-- Stage table of the crop `"Cotton"` in `CROPS`. -/
def cottonStages : List GrowthStage :=
  [⟨"Seedling", 25, 0.6⟩, ⟨"Vegetative", 45, 1.1⟩,
   ⟨"Flowering", 30, 1.5⟩, ⟨"Boll Formation", 35, 1.8⟩]

/-- Stage table of the crop `"Groundnut"` in `CROPS`. -/
def groundnutStages : List GrowthStage :=
  [⟨"Seedling", 20, 0.5⟩, ⟨"Vegetative", 40, 1.0⟩,
   ⟨"Flowering", 25, 1.2⟩, ⟨"Pod Formation", 30, 1.5⟩]

/-- The crop catalog `self.CROPS`, restricted to the stage tables (the image
URLs play no role in any computation).  A Python dict with string keys in
insertion order is modelled as an association list. -/
def CROPS : List (String × List GrowthStage) :=
  [("Rice", riceStages), ("Maize", maizeStages), ("Sorghum", sorghumStages),
   ("Cotton", cottonStages), ("Groundnut", groundnutStages)]

/-- The regional multiplier table `self.REGIONAL_NPK`. -/
def REGIONAL_NPK : List (String × NPK) :=
  [("North", ⟨1.2, 0.8, 1.0⟩), ("South", ⟨0.9, 1.1, 1.2⟩),
   ("East", ⟨1.1, 0.9, 0.8⟩), ("West", ⟨1.0, 1.0, 1.0⟩),
   ("Central", ⟨1.1, 1.0, 0.9⟩)]

/-- The base requirement table `self.BASE_NPK_REQUIREMENTS`. -/
def BASE_NPK_REQUIREMENTS : List (String × NPK) :=
  [("Rice", ⟨100, 50, 80⟩), ("Maize", ⟨120, 60, 100⟩), ("Sorghum", ⟨90, 40, 70⟩),
   ("Cotton", ⟨110, 70, 90⟩), ("Groundnut", ⟨80, 60, 70⟩)]

/-- Dict indexing `self.BASE_NPK_REQUIREMENTS[crop]`; a Python `KeyError` is
modelled as `none`. -/
def lookupBase (crop : String) : Option NPK :=
  (BASE_NPK_REQUIREMENTS.find? (fun p => p.1 == crop)).map (fun p => p.2)

/-- Dict indexing `self.REGIONAL_NPK[region]`; a `KeyError` is `none`. -/
def lookupRegional (region : String) : Option NPK :=
  (REGIONAL_NPK.find? (fun p => p.1 == region)).map (fun p => p.2)

/-- Dict indexing `self.CROPS[crop]["stages"]`; a `KeyError` is `none`. -/
def cropStages (crop : String) : Option (List GrowthStage) :=
  (CROPS.find? (fun p => p.1 == crop)).map (fun p => p.2)

/-- Dict indexing `self.CROPS[crop]["stages"][stage]["npk_multiplier"]`, the
stage-multiplier lookup of `calculate_npk_requirements`; a `KeyError` at
either level is `none`. -/
def lookupStageMult (crop stage : String) : Option ℚ :=
  (cropStages crop).bind
    (fun l => (l.find? (fun s => s.name == stage)).map (fun s => s.npk_multiplier))

/-- The function `get_region` of the source.  Its body is the single line
`return "North"  # Default return`: it ignores `location` entirely. -/
def get_region (location : String) : String :=
  "North"

/-- The function `calculate_npk_requirements(crop, location, acres, growth_stage)`
of the source: base requirement times regional multiplier (for the region
resolved from `location` by `get_region`) times stage multiplier times acres,
per nutrient; any failing dict lookup (Python `KeyError`) yields `none`. -/
def calculate_npk_requirements (crop location : String) (acres : ℚ)
    (growth_stage : String) : Option NPK :=
  match lookupBase crop, lookupRegional (get_region location),
        lookupStageMult crop growth_stage with
  | some b, some r, some m =>
      some ⟨b.N * r.N * m * acres, b.P * r.P * m * acres, b.K * r.K * m * acres⟩
  | _, _, _ => none

/-- The loop of `calculate_growth_stage`: walk the stage list with the running
total `accumulated_days`, return the first stage whose cumulative total is
`≥ days` (the source comparison is `days_since_sowing <= accumulated_days`),
and fall through to the literal `"Mature"`. -/
def stageLoop (days : Int) : Int → List GrowthStage → String
  | _, [] => "Mature"
  | acc, s :: rest =>
      if days ≤ acc + s.duration then s.name else stageLoop days (acc + s.duration) rest

/-- The function `calculate_growth_stage(sowing_date, crop)` of the source.
The source computes `days_since_sowing = (datetime.now() - sowing_date).days`;
the embedding takes that integer elapsed-day count as the input, together with
the crop's stage table. -/
def calculate_growth_stage (days_since_sowing : Int) (stages : List GrowthStage) :
    String :=
  stageLoop days_since_sowing 0 stages

/-- Sum of the durations of a stage list. -/
def cumDur (l : List GrowthStage) : Int :=
  (l.map (fun s => s.duration)).sum

/-- Name of the first stage of a stage table (the value `calculate_growth_stage`
returns on an empty table is the fall-through `"Mature"`). -/
def firstStage (l : List GrowthStage) : String :=
  match l with
  | [] => "Mature"
  | s :: _ => s.name

/-- Name of the last stage of a stage table. -/
def lastStage (l : List GrowthStage) : String :=
  match l.getLast? with
  | some s => s.name
  | none => "Mature"

/-- The names of a stage table, in order. -/
def stageNames (l : List GrowthStage) : List String :=
  l.map (fun s => s.name)

/-- Index of the first stage carrying a given name in a stage table; equals the
length of the table when the name does not occur. -/
def nameIndex (stage : String) : List GrowthStage → Nat
  | [] => 0
  | s :: rest => if s.name = stage then 0 else nameIndex stage rest + 1

/-- The warning string appended by `get_weather_based_recommendations` when
`weather_data["temperature"] > 30`. -/
def highTempMsg : String :=
  "High temperature detected. Increase irrigation frequency."

/-- The warning string appended when `weather_data["temperature"] < 15`. -/
def lowTempMsg : String :=
  "Low temperature detected. Consider protective measures."

/-- The warning string appended when `weather_data["humidity"] > 80`. -/
def highHumidityMsg : String :=
  "High humidity may increase disease risk. Ensure good ventilation."

/-- The fields of the weather snapshot dict consumed by this core (the source
dict carries further fields, none of which the advisory function reads). -/
structure WeatherData where
  temperature : ℚ
  humidity : ℚ
  precipitation : ℚ
  windSpeed : ℚ

/-- The function `get_weather_based_recommendations` of the source: an
`if`/`elif` pair on temperature followed by an independent `if` on humidity,
each appending one fixed warning string. -/
def get_weather_based_recommendations (w : WeatherData) : List String :=
  (if w.temperature > 30 then [highTempMsg]
   else if w.temperature < 15 then [lowTempMsg]
   else [])
  ++ (if w.humidity > 80 then [highHumidityMsg] else [])

/-- Every crop of the catalog has a nonempty stage table with pairwise distinct
stage names, all durations positive, and no stage named `"Mature"`. -/
lemma crops_tables_ok : ∀ p ∈ CROPS, p.2 ≠ [] ∧ (stageNames p.2).Nodup ∧
    "Mature" ∉ stageNames p.2 ∧ ∀ s ∈ p.2, 0 < s.duration := by
  intro p hp
  simp only [CROPS, List.mem_cons, List.not_mem_nil, or_false] at hp
  rcases hp with rfl | rfl | rfl | rfl | rfl <;>
    exact ⟨by decide, by decide, by decide, by decide⟩

/-- Every crop name of the catalog resolves to its own stage table and has a
base NPK requirement. -/
lemma crops_lookup_ok : ∀ p ∈ CROPS, cropStages p.1 = some p.2 ∧
    (lookupBase p.1).isSome := by
  intro p hp
  simp only [CROPS, List.mem_cons, List.not_mem_nil, or_false] at hp
  rcases hp with rfl | rfl | rfl | rfl | rfl <;> exact ⟨rfl, rfl⟩

/-- Evaluation lemma for `calculate_npk_requirements` when all three lookups
succeed. -/
lemma npk_eval (crop location stage : String) (acres : ℚ)
    (b r : NPK) (m : ℚ)
    (hb : lookupBase crop = some b)
    (hr : lookupRegional (get_region location) = some r)
    (hm : lookupStageMult crop stage = some m) :
    calculate_npk_requirements crop location acres stage =
      some ⟨b.N * r.N * m * acres, b.P * r.P * m * acres, b.K * r.K * m * acres⟩ := by
  unfold calculate_npk_requirements
  rw [hb, hr, hm]

/-- C1: for every crop, resolved region, acres and stage present in the crop's
stage table, `calculate_npk_requirements` returns exactly
`base.X * region.X * stage_multiplier * acres` for each nutrient X. -/
theorem npk_requirements_formula (crop location stage : String) (acres : ℚ)
    (b r : NPK) (m : ℚ)
    (hb : lookupBase crop = some b)
    (hr : lookupRegional (get_region location) = some r)
    (hm : lookupStageMult crop stage = some m) :
    calculate_npk_requirements crop location acres stage =
      some ⟨b.N * r.N * m * acres, b.P * r.P * m * acres, b.K * r.K * m * acres⟩ :=
  npk_eval crop location stage acres b r m hb hr hm

/-- C1 witness: the Rice example of the spec, base `{N:100,P:50,K:80}`, North
multipliers `{N:1.2,P:0.8,K:1.0}`, Vegetative multiplier `0.9`, 2 acres:
the result is `{N:216, P:72, K:144}`. -/
theorem npk_requirements_formula_witness :
    calculate_npk_requirements "Rice" "Delhi, India" 2 "Vegetative" =
      some ⟨216, 72, 144⟩ := by
  have h := npk_requirements_formula "Rice" "Delhi, India" "Vegetative" 2
    ⟨100, 50, 80⟩ ⟨1.2, 0.8, 1.0⟩ 0.9 rfl rfl rfl
  rw [h]
  norm_num

/-- C4 counterexample: `get_region "Nowhereville, Mars"` returns `"North"`,
not the claimed default `"Central"`. -/
theorem get_region_mars_cex :
    get_region "Nowhereville, Mars" = "North" ∧
      get_region "Nowhereville, Mars" ≠ "Central" := by
  exact ⟨rfl, by decide⟩

/-- C4 amended: `get_region` performs no parsing and no table lookup at all; it
ignores the location string and returns `"North"` for every input, never the
default `"Central"`. -/
theorem get_region_always_north :
    ∀ location : String, get_region location = "North" ∧ get_region location ≠ "Central" := by
  intro l
  refine ⟨rfl, ?_⟩
  show ("North" : String) ≠ "Central"
  decide

/-- C10: `calculate_npk_requirements` is independent of its location argument,
because `get_region` returns `"North"` for every location. -/
theorem npk_location_independent :
    ∀ (crop l1 l2 stage : String) (acres : ℚ),
      get_region l1 = "North" ∧
        calculate_npk_requirements crop l1 acres stage =
          calculate_npk_requirements crop l2 acres stage :=
  fun _ _ _ _ _ => ⟨rfl, rfl⟩

/-- C5 counterexample: neither function validates its input.  At elapsed day
count `-5` (sowing date strictly after the current date) `calculate_growth_stage`
returns the first stage `"Seedling"` instead of failing, and at `acres = 0`
`calculate_npk_requirements` returns the zero requirement instead of failing. -/
theorem no_validation_cex :
    calculate_growth_stage (-5) riceStages = "Seedling" ∧
      calculate_npk_requirements "Rice" "Delhi, India" 0 "Seedling" =
        some ⟨0, 0, 0⟩ := by
  refine ⟨rfl, ?_⟩
  rw [npk_eval "Rice" "Delhi, India" "Seedling" 0 ⟨100, 50, 80⟩ ⟨1.2, 0.8, 1.0⟩ 0.4
    rfl rfl rfl]
  norm_num

/-- Base case of `cumDur`. -/
lemma cumDur_nil : cumDur [] = 0 := rfl

/-- Unfolding `cumDur` on a cons cell. -/
lemma cumDur_cons (s : GrowthStage) (l : List GrowthStage) :
    cumDur (s :: l) = s.duration + cumDur l := by
  simp [cumDur]

/-- A stage table with positive durations has a nonnegative total duration. -/
lemma cumDur_nonneg (l : List GrowthStage) (h : ∀ s ∈ l, 0 < s.duration) :
    0 ≤ cumDur l := by
  induction l with
  | nil => simp [cumDur]
  | cons s rest ih =>
      rw [cumDur_cons]
      have h1 := h s (List.mem_cons_self s rest)
      have h2 := ih (fun t ht => h t (List.mem_cons_of_mem s ht))
      omega

/-- A nonempty stage table with positive durations has a positive total. -/
lemma cumDur_pos (l : List GrowthStage) (hne : l ≠ []) (h : ∀ s ∈ l, 0 < s.duration) :
    0 < cumDur l := by
  rcases l with _ | ⟨s, rest⟩
  · exact absurd rfl hne
  · rw [cumDur_cons]
    have h1 := h s (List.mem_cons_self s rest)
    have h2 := cumDur_nonneg rest (fun t ht => h t (List.mem_cons_of_mem s ht))
    omega

/-- On a nonempty table whose total is not yet exceeded, the loop of
`calculate_growth_stage` stops at the first stage whose cumulative duration
(on top of the running total `acc`) reaches the elapsed day count. -/
lemma stageLoop_char (e : Int) :
    ∀ (l : List GrowthStage) (acc : Int), l ≠ [] → e ≤ acc + cumDur l →
      ∃ i, ∃ h : i < l.length,
        stageLoop e acc l = (l.get ⟨i, h⟩).name ∧
        e ≤ acc + cumDur (l.take (i + 1)) ∧
        ∀ j < i, acc + cumDur (l.take (j + 1)) < e := by
  intro l
  induction l with
  | nil => intro acc hne _; exact absurd rfl hne
  | cons s rest ih =>
      intro acc _ hle
      by_cases hc : e ≤ acc + s.duration
      · refine ⟨0, by simp, ?_, ?_, ?_⟩
        · simp only [stageLoop]
          rw [if_pos hc]
          exact rfl
        · simpa [cumDur, List.take_succ_cons] using hc
        · intro j hj
          omega
      · push_neg at hc
        have hrest : rest ≠ [] := by
          intro h0
          rw [h0] at hle
          simp [cumDur] at hle
          omega
        have hle2 : e ≤ (acc + s.duration) + cumDur rest := by
          rw [cumDur_cons] at hle
          omega
        obtain ⟨i, hi, heq, hub, hlb⟩ := ih (acc + s.duration) hrest hle2
        refine ⟨i + 1, ?_, ?_, ?_, ?_⟩
        · simp only [List.length_cons]
          omega
        · simp only [stageLoop]
          rw [if_neg (by omega : ¬ e ≤ acc + s.duration)]
          exact heq
        · rw [List.take_succ_cons, cumDur_cons]
          linarith [hub]
        · intro j hj
          rcases j with _ | k
          · simp only [List.take_succ_cons, List.take_zero, cumDur_cons, cumDur_nil]
            linarith [hc]
          · have hk : k < i := by omega
            have h3 := hlb k hk
            rw [List.take_succ_cons, cumDur_cons]
            linarith [h3]

/-- On a nonempty table with positive durations, the loop applied to exactly
the remaining total duration returns the last stage. -/
lemma stageLoop_last :
    ∀ (l : List GrowthStage) (acc : Int), l ≠ [] → (∀ s ∈ l, 0 < s.duration) →
      stageLoop (acc + cumDur l) acc l = lastStage l := by
  intro l
  induction l with
  | nil => intro acc h _; exact absurd rfl h
  | cons s rest ih =>
      intro acc _ hpos
      rcases Decidable.em (rest = []) with hr | hr
      · subst hr
        have hl : lastStage [s] = s.name := rfl
        rw [hl]
        simp only [stageLoop, cumDur_cons, cumDur_nil]
        rw [if_pos (by omega : acc + (s.duration + 0) ≤ acc + s.duration)]
      · have hpos2 : ∀ t ∈ rest, 0 < t.duration :=
          fun t ht => hpos t (List.mem_cons_of_mem s ht)
        have hsum : 0 < cumDur rest := cumDur_pos rest hr hpos2
        have hlast : lastStage (s :: rest) = lastStage rest := by
          rcases rest with _ | ⟨t, ts⟩
          · exact absurd rfl hr
          · simp [lastStage, List.getLast?_cons_cons]
        rw [hlast, cumDur_cons]
        simp only [stageLoop]
        rw [if_neg (by omega : ¬ acc + (s.duration + cumDur rest) ≤ acc + s.duration)]
        have harg : acc + (s.duration + cumDur rest) = (acc + s.duration) + cumDur rest := by
          ring
        rw [harg]
        exact ih (acc + s.duration) hr hpos2

/-- Once the elapsed day count strictly exceeds the remaining total duration,
the loop falls through every stage and returns the literal `"Mature"`. -/
lemma stageLoop_mature (e : Int) :
    ∀ (l : List GrowthStage) (acc : Int), (∀ s ∈ l, 0 < s.duration) →
      acc + cumDur l < e → stageLoop e acc l = "Mature" := by
  intro l
  induction l with
  | nil => intro acc _ _; rfl
  | cons s rest ih =>
      intro acc hpos hlt
      have hpos2 : ∀ t ∈ rest, 0 < t.duration :=
        fun t ht => hpos t (List.mem_cons_of_mem s ht)
      have h2 : 0 ≤ cumDur rest := cumDur_nonneg rest hpos2
      rw [cumDur_cons] at hlt
      simp only [stageLoop]
      rw [if_neg (by omega : ¬ e ≤ acc + s.duration)]
      exact ih (acc + s.duration) hpos2 (by omega)

/-- C2: for every crop of the catalog and every elapsed day count between 0 and
the total stage duration, `calculate_growth_stage` returns the first stage of
the ordered table whose cumulative duration is `≥` the elapsed days (`≤`
comparison, so a boundary day belongs to the stage just completed), and elapsed
day count 0 returns the first stage. -/
theorem growth_stage_first_cumulative :
    ∀ p ∈ CROPS, ∀ e : Int, 0 ≤ e → e ≤ cumDur p.2 →
      (∃ i, ∃ h : i < p.2.length,
        calculate_growth_stage e p.2 = (p.2.get ⟨i, h⟩).name ∧
        e ≤ cumDur (p.2.take (i + 1)) ∧
        ∀ j < i, cumDur (p.2.take (j + 1)) < e) ∧
      calculate_growth_stage 0 p.2 = firstStage p.2 := by
  intro p hp e he0 heT
  obtain ⟨hne, hnd, hmat, hpos⟩ := crops_tables_ok p hp
  constructor
  · obtain ⟨i, hi, h1, h2, h3⟩ := stageLoop_char e p.2 0 hne (by linarith [heT])
    refine ⟨i, hi, h1, by linarith [h2], ?_⟩
    intro j hj
    have h4 := h3 j hj
    linarith [h4]
  · rcases p with ⟨name, l⟩
    obtain ⟨s, rest, rfl⟩ := List.exists_cons_of_ne_nil hne
    have hs : (0:Int) < s.duration := hpos s (List.mem_cons_self s rest)
    show stageLoop 0 0 (s :: rest) = firstStage (s :: rest)
    simp only [stageLoop, firstStage]
    rw [if_pos (by omega : (0:Int) ≤ 0 + s.duration)]

/-- C2 witness: Rice at elapsed day 30 is within the season, and the returned
stage is characterized as the first with cumulative duration at least 30;
elapsed day 0 returns the first stage. -/
theorem growth_stage_first_cumulative_witness :
    (∃ i, ∃ h : i < riceStages.length,
      calculate_growth_stage 30 riceStages = (riceStages.get ⟨i, h⟩).name ∧
      (30:Int) ≤ cumDur (riceStages.take (i + 1)) ∧
      ∀ j < i, cumDur (riceStages.take (j + 1)) < 30) ∧
    calculate_growth_stage 0 riceStages = firstStage riceStages :=
  growth_stage_first_cumulative ("Rice", riceStages) (List.Mem.head _) 30
    (by decide) (by decide)

/-- C3: for every crop of the catalog, at elapsed days exactly the total stage
duration `calculate_growth_stage` returns the last stage of the sequence, and
at every strictly larger elapsed day count it returns the sentinel `"Mature"`
rather than failing. -/
theorem growth_stage_terminal :
    ∀ p ∈ CROPS, calculate_growth_stage (cumDur p.2) p.2 = lastStage p.2 ∧
      ∀ e : Int, cumDur p.2 < e → calculate_growth_stage e p.2 = "Mature" := by
  intro p hp
  obtain ⟨hne, _, _, hpos⟩ := crops_tables_ok p hp
  constructor
  · have h := stageLoop_last p.2 0 hne hpos
    rw [zero_add] at h
    exact h
  · intro e he
    exact stageLoop_mature e p.2 0 hpos (by omega)

/-- C3 witness: Rice stage durations sum to 140; at elapsed day 140 the result
is the last stage `"Maturing"`, and at day 141 it is `"Mature"`. -/
theorem growth_stage_terminal_witness :
    calculate_growth_stage 140 riceStages = "Maturing" ∧
      calculate_growth_stage 141 riceStages = "Mature" := by
  have h := growth_stage_terminal ("Rice", riceStages) (List.Mem.head _)
  constructor
  · have h1 := h.1
    rwa [show cumDur riceStages = (140:Int) by decide,
      show lastStage riceStages = "Maturing" by decide] at h1
  · exact h.2 141 (by decide)

/-- C5 amended: the source performs no input validation at all.  A negative
elapsed day count (sowing date strictly after the current date) makes
`calculate_growth_stage` return the first stage, not an error, and
`calculate_npk_requirements` accepts `acres = 0` and returns the zero
requirement, not an error. -/
theorem no_input_validation :
    ∀ p ∈ CROPS,
      (∀ e : Int, e < 0 → calculate_growth_stage e p.2 = firstStage p.2) ∧
      ∀ location stage : String, (lookupStageMult p.1 stage).isSome →
        calculate_npk_requirements p.1 location 0 stage = some ⟨0, 0, 0⟩ := by
  intro p hp
  obtain ⟨hne, _, _, hpos⟩ := crops_tables_ok p hp
  obtain ⟨hc, hbs⟩ := crops_lookup_ok p hp
  constructor
  · intro e he
    rcases p with ⟨name, l⟩
    obtain ⟨s, rest, rfl⟩ := List.exists_cons_of_ne_nil hne
    have hs : (0:Int) < s.duration := hpos s (List.mem_cons_self s rest)
    show stageLoop e 0 (s :: rest) = firstStage (s :: rest)
    simp only [stageLoop, firstStage]
    rw [if_pos (by omega : e ≤ 0 + s.duration)]
  · intro location stage hsome
    obtain ⟨m, hm⟩ := Option.isSome_iff_exists.1 hsome
    obtain ⟨b, hb⟩ := Option.isSome_iff_exists.1 hbs
    rw [npk_eval p.1 location stage 0 b ⟨1.2, 0.8, 1.0⟩ m hb rfl hm]
    norm_num

/-- C5 amended witness: Rice at elapsed day count `-3` yields the first stage
`"Seedling"`, and a zero-acre request for a valid stage yields the zero
requirement; no error occurs in either case. -/
theorem no_input_validation_witness :
    calculate_growth_stage (-3) riceStages = "Seedling" ∧
      calculate_npk_requirements "Rice" "Mumbai, India" 0 "Vegetative" =
        some ⟨0, 0, 0⟩ := by
  have h := no_input_validation ("Rice", riceStages) (List.Mem.head _)
  exact ⟨h.1 (-3) (by decide), h.2 "Mumbai, India" "Vegetative" rfl⟩

/-- A stage name absent from a table is never found by `find?`. -/
lemma find?_name_none (l : List GrowthStage) (stage : String)
    (h : stage ∉ stageNames l) : l.find? (fun s => s.name == stage) = none := by
  rw [List.find?_eq_none]
  intro s hs
  simp only [beq_iff_eq]
  intro heq
  exact h (by rw [← heq]; exact List.mem_map_of_mem (fun t => t.name) hs)

/-- For a crop of the catalog, the stage-multiplier lookup fails exactly when
`find?` fails on its stage table. -/
lemma lookupStageMult_none (p : String × List GrowthStage) (hp : p ∈ CROPS)
    (stage : String) (h : p.2.find? (fun s => s.name == stage) = none) :
    lookupStageMult p.1 stage = none := by
  have hc := (crops_lookup_ok p hp).1
  simp [lookupStageMult, hc, h]

/-- When the stage-multiplier lookup fails, `calculate_npk_requirements`
fails, whatever the other lookups produce. -/
lemma npk_none_of_stage_none (crop location stage : String) (acres : ℚ)
    (h : lookupStageMult crop stage = none) :
    calculate_npk_requirements crop location acres stage = none := by
  unfold calculate_npk_requirements
  rw [h]
  rcases lookupBase crop with _ | b <;>
    rcases lookupRegional (get_region location) with _ | r <;> rfl

/-- C6: for every crop of the catalog and every stage name not present in that
crop's stage table, `calculate_npk_requirements` fails (the stage-multiplier
dict lookup misses), for every location and acreage; it never substitutes a
neutral multiplier. -/
theorem unknown_stage_fails :
    ∀ p ∈ CROPS, ∀ stage : String, stage ∉ stageNames p.2 →
      ∀ (location : String) (acres : ℚ),
        calculate_npk_requirements p.1 location acres stage = none := by
  intro p hp stage h location acres
  exact npk_none_of_stage_none p.1 location stage acres
    (lookupStageMult_none p hp stage (find?_name_none p.2 stage h))

/-- C6 witness: the misspelled stage `"Bogus"` is not a Rice stage, and the
requirement computation for it fails. -/
theorem unknown_stage_fails_witness :
    calculate_npk_requirements "Rice" "Delhi, India" 1 "Bogus" = none :=
  unknown_stage_fails ("Rice", riceStages) (List.Mem.head _) "Bogus" (by decide)
    "Delhi, India" 1

/-- C9: for every crop of the catalog, `"Mature"` is not a key of the crop's
stage table; past the total stage duration `calculate_growth_stage` returns
`"Mature"`, and feeding that result to `calculate_npk_requirements` makes its
stage-multiplier lookup fail, so the stage-then-NPK pipeline fails for every
crop past maturity. -/
theorem mature_breaks_pipeline :
    ∀ p ∈ CROPS, "Mature" ∉ stageNames p.2 ∧
      ∀ e : Int, cumDur p.2 < e →
        calculate_growth_stage e p.2 = "Mature" ∧
        ∀ (location : String) (acres : ℚ),
          calculate_npk_requirements p.1 location acres
            (calculate_growth_stage e p.2) = none := by
  intro p hp
  obtain ⟨hne, hnd, hmat, hpos⟩ := crops_tables_ok p hp
  refine ⟨hmat, ?_⟩
  intro e he
  have hm : calculate_growth_stage e p.2 = "Mature" :=
    stageLoop_mature e p.2 0 hpos (by omega)
  refine ⟨hm, ?_⟩
  intro location acres
  rw [hm]
  exact npk_none_of_stage_none p.1 location "Mature" acres
    (lookupStageMult_none p hp "Mature" (find?_name_none p.2 "Mature" hmat))

/-- C9 witness: Rice at elapsed day 200 (past its 140-day season) yields
`"Mature"`, and the NPK computation on that result fails. -/
theorem mature_breaks_pipeline_witness :
    calculate_growth_stage 200 riceStages = "Mature" ∧
      calculate_npk_requirements "Rice" "Delhi, India" 1
        (calculate_growth_stage 200 riceStages) = none := by
  have h := (mature_breaks_pipeline ("Rice", riceStages) (List.Mem.head _)).2 200
    (by decide)
  exact ⟨h.1, h.2 "Delhi, India" 1⟩

/-- Index at which the loop of `calculate_growth_stage` stops: the position of
the returned stage, or the table's length when the loop falls through to
`"Mature"`. -/
def stageLoopIdx (days : Int) : Int → List GrowthStage → Nat
  | _, [] => 0
  | acc, s :: rest =>
      if days ≤ acc + s.duration then 0 else stageLoopIdx days (acc + s.duration) rest + 1

/-- The stopping index never exceeds the table's length. -/
lemma stageLoopIdx_le_length (days : Int) :
    ∀ (l : List GrowthStage) (acc : Int), stageLoopIdx days acc l ≤ l.length := by
  intro l
  induction l with
  | nil => intro acc; simp [stageLoopIdx]
  | cons s rest ih =>
      intro acc
      simp only [stageLoopIdx, List.length_cons]
      by_cases hc : days ≤ acc + s.duration
      · rw [if_pos hc]
        omega
      · rw [if_neg hc]
        have h := ih (acc + s.duration)
        omega

/-- The stopping index is monotone in the elapsed day count. -/
lemma stageLoopIdx_mono (e1 e2 : Int) (h : e1 ≤ e2) :
    ∀ (l : List GrowthStage) (acc : Int),
      stageLoopIdx e1 acc l ≤ stageLoopIdx e2 acc l := by
  intro l
  induction l with
  | nil => intro acc; simp [stageLoopIdx]
  | cons s rest ih =>
      intro acc
      simp only [stageLoopIdx]
      by_cases h2 : e2 ≤ acc + s.duration
      · rw [if_pos h2, if_pos (le_trans h h2)]
      · rw [if_neg h2]
        by_cases h1 : e1 ≤ acc + s.duration
        · rw [if_pos h1]
          omega
        · rw [if_neg h1]
          have h3 := ih (acc + s.duration)
          omega

/-- When the stopping index is inside the table, the loop returns the name of
the stage at that index. -/
lemma stageLoop_get (e : Int) :
    ∀ (l : List GrowthStage) (acc : Int) (i : Nat) (hi : i < l.length),
      stageLoopIdx e acc l = i → stageLoop e acc l = (l.get ⟨i, hi⟩).name := by
  intro l
  induction l with
  | nil => intro acc i hi _; simp at hi
  | cons s rest ih =>
      intro acc i hi hidx
      by_cases hc : e ≤ acc + s.duration
      · simp only [stageLoopIdx, if_pos hc] at hidx
        subst hidx
        simp only [stageLoop]
        rw [if_pos hc]
        exact rfl
      · simp only [stageLoopIdx, if_neg hc] at hidx
        rcases i with _ | k
        · omega
        · have hk2 : k < rest.length := by
            simpa using hi
          have hk : stageLoopIdx e (acc + s.duration) rest = k := by omega
          simp only [stageLoop]
          rw [if_neg hc, ih (acc + s.duration) k hk2 hk]
          exact rfl

/-- When the stopping index equals the table's length, the loop returns the
fall-through value `"Mature"`. -/
lemma stageLoop_mature_of_idx (e : Int) :
    ∀ (l : List GrowthStage) (acc : Int), stageLoopIdx e acc l = l.length →
      stageLoop e acc l = "Mature" := by
  intro l
  induction l with
  | nil => intro acc _; rfl
  | cons s rest ih =>
      intro acc hidx
      by_cases hc : e ≤ acc + s.duration
      · simp only [stageLoopIdx, if_pos hc, List.length_cons] at hidx
        omega
      · simp only [stageLoopIdx, if_neg hc, List.length_cons] at hidx
        simp only [stageLoop]
        rw [if_neg hc]
        exact ih (acc + s.duration) (by omega)

/-- A name absent from a table has `nameIndex` equal to the table's length. -/
lemma nameIndex_of_not_mem (stage : String) :
    ∀ l : List GrowthStage, stage ∉ stageNames l → nameIndex stage l = l.length := by
  intro l
  induction l with
  | nil => intro _; rfl
  | cons s rest ih =>
      intro h
      simp only [stageNames, List.map_cons, List.mem_cons] at h
      push_neg at h
      simp only [nameIndex, List.length_cons]
      rw [if_neg (fun he => h.1 he.symm), ih h.2]

/-- In a table with pairwise distinct names, the name of the stage at
position `i` has `nameIndex` exactly `i`. -/
lemma nameIndex_get :
    ∀ l : List GrowthStage, (stageNames l).Nodup →
      ∀ (i : Nat) (hi : i < l.length), nameIndex ((l.get ⟨i, hi⟩).name) l = i := by
  intro l
  induction l with
  | nil => intro _ i hi; simp at hi
  | cons s rest ih =>
      intro hnd i hi
      simp only [stageNames, List.map_cons, List.nodup_cons] at hnd
      rcases i with _ | k
      · simp [nameIndex, List.get_cons_zero]
      · have hk : k < rest.length := by
          simpa using hi
        have hget : (s :: rest).get ⟨k + 1, hi⟩ = rest.get ⟨k, hk⟩ := rfl
        have hmem : (rest.get ⟨k, hk⟩).name ∈ List.map (fun t => t.name) rest := by
          have h5 : rest.get ⟨k, hk⟩ ∈ rest := List.get_mem rest k hk
          exact List.mem_map_of_mem (fun t => t.name) h5
        have hne : s.name ≠ ((s :: rest).get ⟨k + 1, hi⟩).name := by
          intro he
          rw [hget] at he
          rw [← he] at hmem
          exact hnd.1 hmem
        simp only [nameIndex]
        rw [if_neg hne, hget, ih hnd.2 k hk]

/-- For a table with distinct names and no stage named `"Mature"`, the index of
the name returned by `calculate_growth_stage` is the loop's stopping index. -/
lemma nameIndex_growth_stage (l : List GrowthStage) (hnd : (stageNames l).Nodup)
    (hmat : "Mature" ∉ stageNames l) (e : Int) :
    nameIndex (calculate_growth_stage e l) l = stageLoopIdx e 0 l := by
  have hle := stageLoopIdx_le_length e l 0
  rcases Nat.lt_or_ge (stageLoopIdx e 0 l) l.length with hlt | hge
  · rw [show calculate_growth_stage e l = stageLoop e 0 l from rfl,
      stageLoop_get e l 0 (stageLoopIdx e 0 l) hlt rfl]
    exact nameIndex_get l hnd _ hlt
  · have heq : stageLoopIdx e 0 l = l.length := le_antisymm hle hge
    rw [show calculate_growth_stage e l = stageLoop e 0 l from rfl,
      stageLoop_mature_of_idx e l 0 heq, heq]
    exact nameIndex_of_not_mem "Mature" l hmat

/-- C7: for every crop of the catalog, the index (within the crop's ordered
stage sequence) of the stage returned by `calculate_growth_stage` is
non-decreasing in the elapsed day count, hence in the as-of date for a fixed
sowing date. -/
theorem growth_stage_index_mono :
    ∀ p ∈ CROPS, ∀ e1 e2 : Int, e1 ≤ e2 →
      nameIndex (calculate_growth_stage e1 p.2) p.2 ≤
        nameIndex (calculate_growth_stage e2 p.2) p.2 := by
  intro p hp e1 e2 h
  obtain ⟨_, hnd, hmat, _⟩ := crops_tables_ok p hp
  rw [nameIndex_growth_stage p.2 hnd hmat e1, nameIndex_growth_stage p.2 hnd hmat e2]
  exact stageLoopIdx_mono e1 e2 h p.2 0

/-- C7 witness: for Rice, the stage index at elapsed day 10 is at most the
stage index at elapsed day 30. -/
theorem growth_stage_index_mono_witness :
    nameIndex (calculate_growth_stage 10 riceStages) riceStages ≤
      nameIndex (calculate_growth_stage 30 riceStages) riceStages :=
  growth_stage_index_mono ("Rice", riceStages) (List.Mem.head _) 10 30 (by decide)

/-- C8: the three advisory rules are evaluated on every snapshot and several
may fire together: the irrigation warning is in the output exactly when the
temperature exceeds 30, the protective-measures warning exactly when the
temperature is below 15, and the disease-risk warning exactly when the
humidity exceeds 80. -/
theorem weather_recommendations_iff (w : WeatherData) :
    (highTempMsg ∈ get_weather_based_recommendations w ↔ 30 < w.temperature) ∧
    (lowTempMsg ∈ get_weather_based_recommendations w ↔ w.temperature < 15) ∧
    (highHumidityMsg ∈ get_weather_based_recommendations w ↔ 80 < w.humidity) := by
  have hd1 : highTempMsg ≠ lowTempMsg := by decide
  have hd2 : highTempMsg ≠ highHumidityMsg := by decide
  have hd3 : lowTempMsg ≠ highHumidityMsg := by decide
  by_cases ht1 : 30 < w.temperature <;> by_cases ht2 : w.temperature < 15 <;>
    by_cases hh : 80 < w.humidity <;>
      refine ⟨?_, ?_, ?_⟩ <;>
        simp [get_weather_based_recommendations, ht1, ht2, hh, hd1, hd2, hd3,
          Ne.symm hd1, Ne.symm hd2, Ne.symm hd3] <;>
        linarith
